import Mathlib

/-!
# LLFetchedGLTFMaterial

A verification development for `indra/newview/llfetchedgltfmaterial.cpp`.

The class has two independent responsibilities, embedded here as two groups of
definitions:

* the fetch-state tracker (`materialBegin`, `onMaterialComplete`,
  `materialComplete`): explicit state passing over the two members it touches,
  `mFetching` and `materialCompleteCallbacks`, plus a log of the observable
  events produced by the callbacks;
* the binder (`bind`): a function from the material, the override texture and
  the process-wide render state to the sequence of calls issued on the current
  shader and on texture unit 0.
-/

namespace LLFetchedGLTFMaterial

/-! ## Fetch-state tracker: data model -/

mutual
/-- A value of type `std::function<void()>`: either empty (`null`, the value for
which `!material_complete` holds) or a callable with a body. -/
inductive Callback where
  | null : Callback
  | fn (body : Body) : Callback
/-- What a completion callback does when it is called. A body is a finite
sequence of steps; a step is either an effect outside the material (identified
by a tag) or a call of `onMaterialComplete` on the material that is invoking the
callback. Bodies that call `materialBegin` or `materialComplete` are not part of
the model. -/
inductive Body where
  | done : Body
  | effect (tag : Nat) (next : Body) : Body
  | onMaterialComplete (material_complete : Callback) (next : Body) : Body
end

/-- Observable events. `enter body fetching` marks the start of a call
`material_complete()` whose target has body `body`, together with the value of
`mFetching` the callee finds when it starts; `leave` marks the return of the
innermost running callback; `effect tag` is an effect performed by a body. -/
inductive Event where
  | enter (body : Body) (fetching : Bool) : Event
  | effect (tag : Nat) : Event
  | leave : Event

/-- The ways an operation can fail. `assertion` is a failed `llassert`;
`bad_function_call` is what calling an empty `std::function` throws. -/
inductive Fault where
  | assertion : Fault
  | bad_function_call : Fault
  deriving DecidableEq, Repr

/-- The members of the material used by the fetch-state tracker, together with
the log of events observed so far. The material is Idle when `mFetching` is
false and Fetching when it is true. -/
structure World where
  mFetching : Bool
  materialCompleteCallbacks : List Callback
  log : List Event

/-- Append one event to the log. -/
def World.emit (w : World) (e : Event) : World :=
  { w with log := w.log ++ [e] }

/-- Modelled from the spec: the `llassert` macro, whose definition is not in this
file. A violated assertion is a fatal programming-error assertion; a satisfied
one does nothing. -/
def llassert (cond : Bool) : Except Fault Unit :=
  if cond then .ok () else .error .assertion

/-! ## Fetch-state tracker: operations -/

/-- The constructor (lines 35-42): `mFetching(false)`; the callback vector is
default-constructed, hence empty. Nothing has been observed yet. -/
def construct : World :=
  { mFetching := false, materialCompleteCallbacks := [], log := [] }

/-- `materialBegin` (lines 132-136). -/
def materialBegin (w : World) : Except Fault World :=
  match llassert (!w.mFetching) with
  | .error e => .error e
  | .ok _ => .ok { w with mFetching := true }

/-- The call `material_complete()` of a non-empty callback with body `body`,
given the function `runBody` that executes the body: the call is entered, the
body runs, the call returns. -/
def call (body : Body) (runBody : World → World) (w : World) : World :=
  (runBody (w.emit (.enter body w.mFetching))).emit .leave

mutual
/-- `onMaterialComplete` (lines 138-149). -/
def onMaterialComplete : Callback → World → World
  | .null, w => w
  | .fn body, w =>
    if !w.mFetching then
      call body (run body) w
    else
      { w with materialCompleteCallbacks := w.materialCompleteCallbacks ++ [.fn body] }
/-- Execution of a callback body, step by step. -/
def run : Body → World → World
  | .done, w => w
  | .effect tag next, w => run next (w.emit (.effect tag))
  | .onMaterialComplete material_complete next, w =>
    run next (onMaterialComplete material_complete w)
end

/-- The call `material_complete()` made by the loop of `materialComplete`, where
the callee is whatever the vector holds: calling an empty function throws. -/
def invoke : Callback → World → Except Fault World
  | .null, _ => .error .bad_function_call
  | .fn body, w => .ok (call body (run body) w)

/-- The range-based `for` loop of `materialComplete` (lines 156-159): each element
is copied and called, in order. The list is the content of the vector when the
loop starts; the loop runs with `mFetching` cleared, and in that state no
callback of the model changes the vector (`run_idle`), so these are the elements
the iteration visits. -/
def drain : List Callback → World → Except Fault World
  | [], w => .ok w
  | material_complete :: rest, w =>
    match invoke material_complete w with
    | .error e => .error e
    | .ok w1 => drain rest w1

/-- `materialComplete` (lines 151-162). `shrink_to_fit` only releases capacity. -/
def materialComplete (w : World) : Except Fault World :=
  match llassert w.mFetching with
  | .error e => .error e
  | .ok _ =>
    let w1 := { w with mFetching := false }
    match drain w1.materialCompleteCallbacks w1 with
    | .error e => .error e
    | .ok w2 => .ok { w2 with materialCompleteCallbacks := [] }

/-- Register the callbacks of a list one after the other. -/
def registerAll : List Callback → World → World
  | [], w => w
  | c :: cs, w => registerAll cs (onMaterialComplete c w)

/-! ## Fetch-state tracker: reference descriptions -/

/-- A body touches the material when it contains a call of
`onMaterialComplete`. -/
def Body.touchesMaterial : Body → Bool
  | .done => false
  | .effect _ next => next.touchesMaterial
  | .onMaterialComplete _ _ => true

/-- The tags of the effects a body performs itself, in order. -/
def Body.effects : Body → List Nat
  | .done => []
  | .effect tag next => tag :: next.effects
  | .onMaterialComplete _ next => next.effects

mutual
/-- The events `onMaterialComplete c` produces on an Idle material: nothing for
an empty callback, otherwise one complete call of `c`. -/
def Callback.idleTrace : Callback → List Event
  | .null => []
  | .fn body => .enter body false :: (body.idleTrace ++ [.leave])
/-- The events a body produces when it runs on an Idle material: a callback it
registers is called on the spot, between the steps before and after the
registration. -/
def Body.idleTrace : Body → List Event
  | .done => []
  | .effect tag next => .effect tag :: next.idleTrace
  | .onMaterialComplete material_complete next =>
    material_complete.idleTrace ++ next.idleTrace
end

/-- The events of one complete call of a callback with body `body` on an Idle
material. -/
def frame (body : Body) : List Event :=
  .enter body false :: (body.idleTrace ++ [.leave])

/-- The bodies of the callbacks called in a sequence of events, in order. -/
def invocations : List Event → List Body
  | [] => []
  | .enter body _ :: es => body :: invocations es
  | .effect _ :: es => invocations es
  | .leave :: es => invocations es

/-- The values of `mFetching` found by the callbacks called in a sequence of
events, in order. -/
def observedFlags : List Event → List Bool
  | [] => []
  | .enter _ fetching :: es => fetching :: observedFlags es
  | .effect _ :: es => observedFlags es
  | .leave :: es => observedFlags es

/-- The operations a client can perform on a material. -/
inductive Op where
  | materialBegin : Op
  | onMaterialComplete (material_complete : Callback) : Op
  | materialComplete : Op

/-- Perform one client operation. -/
def step : Op → World → Except Fault World
  | .materialBegin, w => materialBegin w
  | .onMaterialComplete c, w => .ok (onMaterialComplete c w)
  | .materialComplete, w => materialComplete w

/-- Perform a sequence of client operations, stopping at the first failure. -/
def exec : List Op → World → Except Fault World
  | [], w => .ok w
  | op :: ops, w =>
    match step op w with
    | .error e => .error e
    | .ok w1 => exec ops w1

/-! ## Binder: data model -/

/-- Modelled from the spec: the enumeration `LLGLTFMaterial::AlphaMode`, declared
in the base class header; the spec lists the modes opaque, mask and blend. -/
inductive AlphaMode where
  | ALPHA_MODE_OPAQUE : AlphaMode
  | ALPHA_MODE_BLEND : AlphaMode
  | ALPHA_MODE_MASK : AlphaMode
  deriving DecidableEq, Repr

/-- The indices of `mTextureTransform` used by `bind` (lines 114-126). -/
inductive TextureInfo where
  | GLTF_TEXTURE_INFO_BASE_COLOR : TextureInfo
  | GLTF_TEXTURE_INFO_NORMAL : TextureInfo
  | GLTF_TEXTURE_INFO_METALLIC_ROUGHNESS : TextureInfo
  | GLTF_TEXTURE_INFO_EMISSIVE : TextureInfo
  deriving DecidableEq, Repr

/-- The `LLShaderMgr` uniform names used by `bind`. -/
inductive Uniform where
  | MINIMUM_ALPHA : Uniform
  | BUMP_MAP : Uniform
  | SPECULAR_MAP : Uniform
  | EMISSIVE_MAP : Uniform
  | ROUGHNESS_FACTOR : Uniform
  | METALLIC_FACTOR : Uniform
  | EMISSIVE_COLOR : Uniform
  | TEXTURE_BASE_COLOR_TRANSFORM : Uniform
  | TEXTURE_NORMAL_TRANSFORM : Uniform
  | TEXTURE_METALLIC_ROUGHNESS_TRANSFORM : Uniform
  | TEXTURE_EMISSIVE_TRANSFORM : Uniform
  deriving DecidableEq, Repr

/-- An `LLColor4`: four components `mV[0..3]`, the last one being alpha. -/
structure LLColor4 (F : Type) where
  mV : Fin 4 → F

/-- An `LLColor3`: three components `mV[0..2]`. -/
structure LLColor3 (F : Type) where
  mV : Fin 3 → F

/-- The members of the material read by `bind`. `F` is the type `F32` with its
own arithmetic, `Tex` the type of textures (a texture pointer is an
`Option Tex`, `none` being the null pointer) and `TT` the type of
texture-transform records. -/
structure Material (F Tex TT : Type) where
  mAlphaMode : AlphaMode
  mAlphaCutoff : F
  mBaseColor : LLColor4 F
  mEmissiveColor : LLColor3 F
  mRoughnessFactor : F
  mMetallicFactor : F
  mTextureTransform : TextureInfo → TT
  mBaseColorTexture : Option Tex
  mNormalTexture : Option Tex
  mMetallicRoughnessTexture : Option Tex
  mEmissiveTexture : Option Tex

/-- The process-wide state read by `bind`: the shader currently bound
(`LLGLSLShader::sCurBoundShaderPtr`, which `bind` dereferences unchecked, so
that a bound shader is a precondition of the call), the shadow-pass flag
`LLPipeline::sShadowRender` and the two placeholder textures of
`LLViewerFetchedTexture`. -/
structure RenderState (Sh Tex : Type) where
  sCurBoundShaderPtr : Sh
  sShadowRender : Bool
  sWhiteImagep : Option Tex
  sFlatNormalImagep : Option Tex

/-- The calls `bind` issues: four methods of the shader, with the receiver as
first argument, and `gGL.getTexUnit(unit)->bindFast(tex)`. -/
inductive GLCall (F Tex Sh : Type) where
  | uniform1f (shader : Sh) (uniform : Uniform) (x : F) : GLCall F Tex Sh
  | uniform3fv (shader : Sh) (uniform : Uniform) (count : Nat) (v : Fin 3 → F) : GLCall F Tex Sh
  | uniform4fv (shader : Sh) (uniform : Uniform) (count : Nat) (v : Fin 8 → F) : GLCall F Tex Sh
  | bindTexture (shader : Sh) (uniform : Uniform) (texture : Option Tex) : GLCall F Tex Sh
  | bindFast (unit : Nat) (texture : Option Tex) : GLCall F Tex Sh

/-! ## Binder: the operation -/

section Binder

variable {F Tex TT Sh : Type}

/-- `bind` (lines 49-130), as the list of calls it issues, in order.
`getPacked t` is the content of the 8-float buffer after
`t.getPacked(buffer)`; that method is defined outside this file. -/
def bind [Neg F] [One F] [Div F] (getPacked : TT → Fin 8 → F)
    (g : RenderState Sh Tex) (m : Material F Tex TT) (media_tex : Option Tex) :
    List (GLCall F Tex Sh) :=
  let min_alpha : F := -1
  let shader := g.sCurBoundShaderPtr
  let baseColorTex := if media_tex.isSome then media_tex else m.mBaseColorTexture
  let emissiveTex := if media_tex.isSome then media_tex else m.mEmissiveTexture
  let min_alpha :=
    if m.mAlphaMode = AlphaMode.ALPHA_MODE_MASK then m.mAlphaCutoff / m.mBaseColor.mV 3
    else min_alpha
  [GLCall.uniform1f shader Uniform.MINIMUM_ALPHA min_alpha]
  ++ [if baseColorTex.isSome then GLCall.bindFast 0 baseColorTex
      else GLCall.bindFast 0 g.sWhiteImagep]
  ++ (if !g.sShadowRender then
        [ if m.mNormalTexture.isSome then
            GLCall.bindTexture shader Uniform.BUMP_MAP m.mNormalTexture
          else GLCall.bindTexture shader Uniform.BUMP_MAP g.sFlatNormalImagep,
          if m.mMetallicRoughnessTexture.isSome then
            GLCall.bindTexture shader Uniform.SPECULAR_MAP m.mMetallicRoughnessTexture
          else GLCall.bindTexture shader Uniform.SPECULAR_MAP g.sWhiteImagep,
          if emissiveTex.isSome then
            GLCall.bindTexture shader Uniform.EMISSIVE_MAP emissiveTex
          else GLCall.bindTexture shader Uniform.EMISSIVE_MAP g.sWhiteImagep,
          GLCall.uniform1f shader Uniform.ROUGHNESS_FACTOR m.mRoughnessFactor,
          GLCall.uniform1f shader Uniform.METALLIC_FACTOR m.mMetallicFactor,
          GLCall.uniform3fv shader Uniform.EMISSIVE_COLOR 1 m.mEmissiveColor.mV,
          GLCall.uniform4fv shader Uniform.TEXTURE_BASE_COLOR_TRANSFORM 2
            (getPacked (m.mTextureTransform TextureInfo.GLTF_TEXTURE_INFO_BASE_COLOR)),
          GLCall.uniform4fv shader Uniform.TEXTURE_NORMAL_TRANSFORM 2
            (getPacked (m.mTextureTransform TextureInfo.GLTF_TEXTURE_INFO_NORMAL)),
          GLCall.uniform4fv shader Uniform.TEXTURE_METALLIC_ROUGHNESS_TRANSFORM 2
            (getPacked (m.mTextureTransform TextureInfo.GLTF_TEXTURE_INFO_METALLIC_ROUGHNESS)),
          GLCall.uniform4fv shader Uniform.TEXTURE_EMISSIVE_TRANSFORM 2
            (getPacked (m.mTextureTransform TextureInfo.GLTF_TEXTURE_INFO_EMISSIVE)) ]
      else [])

/-! ## Binder: observations on a sequence of calls -/

/-- The values uploaded to `MINIMUM_ALPHA`, in order. -/
def minimumAlphaUploads : List (GLCall F Tex Sh) → List F
  | [] => []
  | GLCall.uniform1f _ Uniform.MINIMUM_ALPHA x :: cs => x :: minimumAlphaUploads cs
  | _ :: cs => minimumAlphaUploads cs

/-- The textures bound on texture unit 0, in order. -/
def unit0Binds : List (GLCall F Tex Sh) → List (Option Tex)
  | [] => []
  | GLCall.bindFast 0 t :: cs => t :: unit0Binds cs
  | _ :: cs => unit0Binds cs

/-- The textures bound to the sampler `u` through `bindTexture`, in order. -/
def textureBinds (u : Uniform) : List (GLCall F Tex Sh) → List (Option Tex)
  | [] => []
  | GLCall.bindTexture _ v t :: cs =>
    if v = u then t :: textureBinds u cs else textureBinds u cs
  | _ :: cs => textureBinds u cs

/-! ## Binder: reference descriptions -/

/-- The effective texture of a slot the override applies to: the override when
one is supplied, else the material's own texture. -/
def effectiveTexture (media_tex own : Option Tex) : Option Tex :=
  match media_tex with
  | some t => some t
  | none => own

/-- The texture bound for a slot: its texture when that is set, else the
placeholder. -/
def orPlaceholder (texture placeholder : Option Tex) : Option Tex :=
  match texture with
  | some t => some t
  | none => placeholder

/-- The minimum-alpha threshold: the alpha cutoff divided by the alpha component
of the base colour in mask mode, and -1 in the other modes. -/
def minimumAlpha [Neg F] [One F] [Div F] (m : Material F Tex TT) : F :=
  match m.mAlphaMode with
  | AlphaMode.ALPHA_MODE_MASK => m.mAlphaCutoff / m.mBaseColor.mV 3
  | AlphaMode.ALPHA_MODE_OPAQUE => -1
  | AlphaMode.ALPHA_MODE_BLEND => -1

end Binder

/-! ## Sample values -/

/-- A material in ALPHA_MODE_MASK with cutoff 1/2, base colour alpha 1/4 and no
texture set. -/
def sampleMask : Material ℚ Nat Nat :=
  { mAlphaMode := AlphaMode.ALPHA_MODE_MASK
    mAlphaCutoff := 1 / 2
    mBaseColor := { mV := fun i => if i = 3 then 1 / 4 else 1 }
    mEmissiveColor := { mV := fun _ => 0 }
    mRoughnessFactor := 1
    mMetallicFactor := 1
    mTextureTransform := fun _ => 0
    mBaseColorTexture := none
    mNormalTexture := none
    mMetallicRoughnessTexture := none
    mEmissiveTexture := none }

/-- An opaque material with all four textures set. -/
def sampleOpaque : Material ℚ Nat Nat :=
  { sampleMask with
    mAlphaMode := AlphaMode.ALPHA_MODE_OPAQUE
    mBaseColorTexture := some 11
    mNormalTexture := some 12
    mMetallicRoughnessTexture := some 13
    mEmissiveTexture := some 14 }

/-- A render state outside the shadow pass: shader 7 bound, white placeholder 1,
flat-normal placeholder 2. -/
def sampleRender : RenderState Nat Nat :=
  { sCurBoundShaderPtr := 7, sShadowRender := false,
    sWhiteImagep := some 1, sFlatNormalImagep := some 2 }

/-- The same render state during a shadow pass. -/
def sampleShadow : RenderState Nat Nat :=
  { sampleRender with sShadowRender := true }

/-- A packing function for the samples: the record number in every slot. -/
def samplePacked : Nat → Fin 8 → ℚ := fun t _ => t

/-! ## Fetch-state tracker: auxiliary lemmas -/

theorem invocations_append (xs ys : List Event) :
    invocations (xs ++ ys) = invocations xs ++ invocations ys := by
  induction xs with
  | nil => rfl
  | cons e es ih => cases e <;> simp [invocations, ih]

theorem observedFlags_append (xs ys : List Event) :
    observedFlags (xs ++ ys) = observedFlags xs ++ observedFlags ys := by
  induction xs with
  | nil => rfl
  | cons e es ih => cases e <;> simp [observedFlags, ih]

mutual
/-- On an Idle material `onMaterialComplete` only extends the log, by the idle
trace of the callback. -/
theorem onMaterialComplete_idle : ∀ (c : Callback) (w : World), w.mFetching = false →
    onMaterialComplete c w =
      { mFetching := false, materialCompleteCallbacks := w.materialCompleteCallbacks,
        log := w.log ++ c.idleTrace }
  | .null, w, h => by
    cases w
    simp only [onMaterialComplete, Callback.idleTrace, List.append_nil] at *
    simp [h]
  | .fn body, ⟨fetching, queue, log⟩, h => by
    simp only at h
    subst h
    have ih := run_idle body ⟨false, queue, log ++ [.enter body false]⟩ rfl
    simp [onMaterialComplete, call, World.emit, ih, Callback.idleTrace]
/-- On an Idle material running a body only extends the log, by the idle trace
of the body. -/
theorem run_idle : ∀ (b : Body) (w : World), w.mFetching = false →
    run b w =
      { mFetching := false, materialCompleteCallbacks := w.materialCompleteCallbacks,
        log := w.log ++ b.idleTrace }
  | .done, w, h => by
    cases w
    simp only [run, Body.idleTrace, List.append_nil] at *
    simp [h]
  | .effect tag next, w, h => by
    have ih := run_idle next (w.emit (.effect tag)) (by simpa [World.emit] using h)
    simp only [run, ih, Body.idleTrace]
    simp [World.emit]
  | .onMaterialComplete c next, w, h => by
    have h1 := onMaterialComplete_idle c w h
    have ih := run_idle next (onMaterialComplete c w) (by rw [h1])
    simp only [run, ih, Body.idleTrace]
    simp [h1]
end

/-- Calling a stored non-empty callback on an Idle material appends its frame. -/
theorem invoke_idle (body : Body) (w : World) (h : w.mFetching = false) :
    invoke (.fn body) w =
      .ok { mFetching := false, materialCompleteCallbacks := w.materialCompleteCallbacks,
            log := w.log ++ frame body } := by
  have ih := run_idle body (w.emit (.enter body w.mFetching)) (by simpa [World.emit] using h)
  simp only [invoke, call, ih, frame]
  simp [World.emit, h]

/-- The loop over a vector of non-empty callbacks, on an Idle material, appends
their frames in order and changes nothing else. -/
theorem drain_idle : ∀ (bodies : List Body) (w : World), w.mFetching = false →
    drain (bodies.map Callback.fn) w =
      .ok { mFetching := false, materialCompleteCallbacks := w.materialCompleteCallbacks,
            log := w.log ++ bodies.flatMap frame }
  | [], w, h => by
    cases w
    simp only [List.map_nil, drain, List.flatMap_nil, List.append_nil] at *
    simp [h]
  | b :: bs, w, h => by
    simp only [List.map_cons, drain, invoke_idle b w h]
    rw [drain_idle bs _ rfl]
    simp [List.flatMap_cons]

/-- While the material is Fetching, registering non-empty callbacks appends them
to the vector and changes nothing else. -/
theorem registerAll_fetching : ∀ (bodies : List Body) (w : World), w.mFetching = true →
    registerAll (bodies.map Callback.fn) w =
      { mFetching := true,
        materialCompleteCallbacks := w.materialCompleteCallbacks ++ bodies.map Callback.fn,
        log := w.log }
  | [], w, h => by
    cases w
    simp only [List.map_nil, registerAll, List.append_nil] at *
    simp [h]
  | b :: bs, w, h => by
    simp only [List.map_cons, registerAll, onMaterialComplete, h]
    rw [registerAll_fetching bs _ rfl]
    simp

/-- The idle trace of a body that does not touch the material consists of its
own effects. -/
theorem idleTrace_of_not_touches : ∀ (b : Body), b.touchesMaterial = false →
    b.idleTrace = b.effects.map Event.effect
  | .done, _ => rfl
  | .effect tag next, h => by
    simp only [Body.touchesMaterial] at h
    simp [Body.idleTrace, Body.effects, idleTrace_of_not_touches next h]
  | .onMaterialComplete _ _, h => by simp [Body.touchesMaterial] at h

theorem invocations_effects (tags : List Nat) :
    invocations (tags.map Event.effect) = [] := by
  induction tags with
  | nil => rfl
  | cons t ts ih => simpa [invocations] using ih

/-- The callbacks called by the frames of bodies that do not touch the material
are exactly those bodies. -/
theorem invocations_frames : ∀ (bodies : List Body),
    (∀ b ∈ bodies, b.touchesMaterial = false) →
    invocations (bodies.flatMap frame) = bodies
  | [], _ => rfl
  | b :: bs, h => by
    have hb : b.touchesMaterial = false := h b (List.mem_cons_self _ _)
    have hbs : ∀ x ∈ bs, x.touchesMaterial = false :=
      fun x hx => h x (List.mem_cons_of_mem _ hx)
    rw [List.flatMap_cons, invocations_append, invocations_frames bs hbs, frame,
      idleTrace_of_not_touches b hb]
    simp [invocations, invocations_append, invocations_effects]

mutual
/-- Every callback called in the idle trace of a callback finds
`mFetching = false`. -/
theorem observedFlags_callback_idleTrace : ∀ (c : Callback),
    ∀ f ∈ observedFlags c.idleTrace, f = false
  | .null => by simp [Callback.idleTrace, observedFlags]
  | .fn body => by
    have ih := observedFlags_body_idleTrace body
    simp only [Callback.idleTrace, observedFlags, observedFlags_append]
    intro f hf
    simp only [List.append_nil, List.mem_cons] at hf
    rcases hf with hf | hf
    · exact hf
    · exact ih f hf
/-- Every callback called in the idle trace of a body finds
`mFetching = false`. -/
theorem observedFlags_body_idleTrace : ∀ (b : Body),
    ∀ f ∈ observedFlags b.idleTrace, f = false
  | .done => by simp [Body.idleTrace, observedFlags]
  | .effect tag next => by
    have ih := observedFlags_body_idleTrace next
    simpa [Body.idleTrace, observedFlags] using ih
  | .onMaterialComplete c next => by
    have h1 := observedFlags_callback_idleTrace c
    have h2 := observedFlags_body_idleTrace next
    simp only [Body.idleTrace, observedFlags_append]
    intro f hf
    rcases List.mem_append.mp hf with hf | hf
    · exact h1 f hf
    · exact h2 f hf
end

theorem observedFlags_frames : ∀ (bodies : List Body),
    ∀ f ∈ observedFlags (bodies.flatMap frame), f = false
  | [] => by simp [observedFlags]
  | b :: bs => by
    intro f hf
    simp only [List.flatMap_cons, observedFlags_append] at hf
    rcases List.mem_append.mp hf with hf | hf
    · exact observedFlags_callback_idleTrace (.fn b) f (by simpa [Callback.idleTrace, frame] using hf)
    · exact observedFlags_frames bs f hf

mutual
/-- A callback called inside the idle trace of a callback is a proper part of
it. -/
theorem sizeOf_enter_callback : ∀ (c : Callback) (g : Body) (f : Bool),
    Event.enter g f ∈ c.idleTrace → sizeOf g < sizeOf c
  | .null, g, f, h => by simp [Callback.idleTrace] at h
  | .fn body, g, f, h => by
    simp only [Callback.idleTrace, List.mem_cons, List.mem_append, List.not_mem_nil,
      reduceCtorEq, or_false] at h
    rcases h with h | h
    · cases h
      simp
    · have := sizeOf_enter_body body g f h
      simp
      omega
/-- A callback called inside the idle trace of a body is a proper part of it. -/
theorem sizeOf_enter_body : ∀ (b : Body) (g : Body) (f : Bool),
    Event.enter g f ∈ b.idleTrace → sizeOf g < sizeOf b
  | .done, g, f, h => by simp [Body.idleTrace] at h
  | .effect tag next, g, f, h => by
    simp only [Body.idleTrace, List.mem_cons] at h
    rcases h with h | h
    · cases h
    · have := sizeOf_enter_body next g f h
      simp
      omega
  | .onMaterialComplete c next, g, f, h => by
    simp only [Body.idleTrace, List.mem_append] at h
    rcases h with h | h
    · have := sizeOf_enter_callback c g f h
      simp
      omega
    · have := sizeOf_enter_body next g f h
      simp
      omega
end

/-- A callback is not called again from inside its own body. -/
theorem enter_not_mem_idleTrace (body : Body) (f : Bool) :
    Event.enter body f ∉ body.idleTrace := fun h =>
  Nat.lt_irrefl _ (sizeOf_enter_body body body f h)

/-- For bodies that do not touch the material a frame is the call, the effects
of the body and the return. -/
theorem flatMap_frame_of_not_touches : ∀ (bodies : List Body),
    (∀ b ∈ bodies, b.touchesMaterial = false) →
    bodies.flatMap frame =
      bodies.flatMap
        (fun b => Event.enter b false :: (b.effects.map Event.effect ++ [Event.leave]))
  | [], _ => rfl
  | b :: bs, h => by
    have hb : b.touchesMaterial = false := h b (List.mem_cons_self _ _)
    have hbs : ∀ x ∈ bs, x.touchesMaterial = false :=
      fun x hx => h x (List.mem_cons_of_mem _ hx)
    rw [List.flatMap_cons, List.flatMap_cons, flatMap_frame_of_not_touches bs hbs, frame,
      idleTrace_of_not_touches b hb]

/-- A run of registrations is the same as `registerAll`. -/
theorem exec_register : ∀ (cs : List Callback) (rest : List Op) (w : World),
    exec (cs.map Op.onMaterialComplete ++ rest) w = exec rest (registerAll cs w)
  | [], rest, w => rfl
  | c :: cs, rest, w => by
    simp only [List.map_cons, List.cons_append, exec, step, registerAll]
    exact exec_register cs rest _

/-- The loop can fail only by calling an empty function. -/
theorem drain_error : ∀ (cs : List Callback) (w : World) (e : Fault),
    drain cs w = .error e → e = .bad_function_call
  | [], w, e, h => by simp [drain] at h
  | .null :: cs, w, e, h => by
    simp only [drain, invoke, Except.error.injEq] at h
    exact h.symm
  | .fn body :: cs, w, e, h => by
    simp only [drain, invoke] at h
    exact drain_error cs _ e h

/-- A vector without empty functions is the image of a list of bodies. -/
theorem exists_bodies_of_ne_null : ∀ (cs : List Callback), (∀ c ∈ cs, c ≠ Callback.null) →
    ∃ bodies : List Body, cs = bodies.map Callback.fn
  | [], _ => ⟨[], rfl⟩
  | .null :: cs, h => absurd rfl (h .null (List.mem_cons_self _ _))
  | .fn body :: cs, h => by
    obtain ⟨bs, hbs⟩ := exists_bodies_of_ne_null cs (fun c hc => h c (List.mem_cons_of_mem _ hc))
    exact ⟨body :: bs, by simp [hbs]⟩

/-- `materialComplete` on a Fetching material whose vector holds non-empty
callbacks returns, having appended their frames. -/
theorem materialComplete_fetching (bodies : List Body) (log : List Event) :
    materialComplete ⟨true, bodies.map Callback.fn, log⟩ =
      .ok ⟨false, [], log ++ bodies.flatMap frame⟩ := by
  simp only [materialComplete, llassert, if_true]
  rw [drain_idle bodies ⟨false, bodies.map Callback.fn, log⟩ rfl]

/-- `onMaterialComplete` never stores an empty function. -/
theorem onMaterialComplete_ne_null (c : Callback) (w : World)
    (h : ∀ x ∈ w.materialCompleteCallbacks, x ≠ Callback.null) :
    ∀ x ∈ (onMaterialComplete c w).materialCompleteCallbacks, x ≠ Callback.null := by
  cases hf : w.mFetching with
  | false => rw [onMaterialComplete_idle c w hf]; exact h
  | true =>
    cases c with
    | null => simpa [onMaterialComplete] using h
    | fn body =>
      simp only [onMaterialComplete, hf]
      intro x hx
      simp only [Bool.not_true, Bool.false_eq_true, if_false, List.mem_append,
        List.mem_singleton] at hx
      rcases hx with hx | hx
      · exact h x hx
      · rw [hx]; exact fun hn => Callback.noConfusion hn

/-- One client operation keeps the vector free of empty functions and never
fails by calling one. -/
theorem step_ne_null (op : Op) (w : World)
    (h : ∀ x ∈ w.materialCompleteCallbacks, x ≠ Callback.null) :
    step op w ≠ .error .bad_function_call ∧
    ∀ w1, step op w = .ok w1 → ∀ x ∈ w1.materialCompleteCallbacks, x ≠ Callback.null := by
  cases op with
  | materialBegin =>
    cases hf : w.mFetching <;> simp [step, materialBegin, llassert, hf]
    exact h
  | onMaterialComplete c =>
    refine ⟨by simp [step], ?_⟩
    intro w1 hw1
    simp only [step, Except.ok.injEq] at hw1
    subst hw1
    exact onMaterialComplete_ne_null c w h
  | materialComplete =>
    obtain ⟨fetching, queue, log⟩ := w
    obtain ⟨bodies, hb⟩ := exists_bodies_of_ne_null queue h
    subst hb
    cases fetching with
    | false => simp [step, materialComplete, llassert]
    | true =>
      simp only [step, materialComplete_fetching]
      refine ⟨by simp, ?_⟩
      intro w1 hw1
      simp only [Except.ok.injEq] at hw1
      subst hw1
      simp

/-- No sequence of client operations fails by calling an empty function, provided
it starts with a vector free of them. -/
theorem exec_ne_bad_function_call : ∀ (ops : List Op) (w : World),
    (∀ x ∈ w.materialCompleteCallbacks, x ≠ Callback.null) →
    exec ops w ≠ .error .bad_function_call
  | [], w, _ => by simp [exec]
  | op :: ops, w, h => by
    have hs := step_ne_null op w h
    cases hw : step op w with
    | error e =>
      simp only [exec, hw]
      intro he
      exact hs.1 (by rw [hw, he])
    | ok w1 =>
      simp only [exec, hw]
      exact exec_ne_bad_function_call ops w1 (hs.2 w1 hw)

/-- A loop that completes met no empty function. -/
theorem drain_ok_ne_null : ∀ (cs : List Callback) (w w2 : World),
    drain cs w = .ok w2 → ∀ c ∈ cs, c ≠ Callback.null
  | [], _, _, _ => by simp
  | .null :: cs, w, w2, h => by simp [drain, invoke] at h
  | .fn body :: cs, w, w2, h => by
    simp only [drain, invoke] at h
    intro c hc
    rcases List.mem_cons.mp hc with hc | hc
    · rw [hc]; exact fun hn => Callback.noConfusion hn
    · exact drain_ok_ne_null cs _ w2 h c hc

/-- A completed `materialComplete` leaves the material Idle with an empty
vector. -/
theorem materialComplete_ok (w w1 : World) (h : materialComplete w = .ok w1) :
    w1.mFetching = false ∧ w1.materialCompleteCallbacks = [] := by
  obtain ⟨fetching, queue, log⟩ := w
  cases fetching with
  | false => simp [materialComplete, llassert] at h
  | true =>
    cases hd : drain queue ⟨false, queue, log⟩ with
    | error e => simp [materialComplete, llassert, hd] at h
    | ok w2 =>
      obtain ⟨bodies, hb⟩ := exists_bodies_of_ne_null queue (drain_ok_ne_null _ _ _ hd)
      subst hb
      rw [materialComplete_fetching] at h
      simp only [Except.ok.injEq] at h
      subst h
      exact ⟨rfl, rfl⟩

/-! ## Fetch-state tracker: the properties -/

/-- C1. From an Idle material with an empty vector, `materialBegin` followed by
the registration of N non-empty callbacks that do not touch the material calls
none of them and stores all of them in order; the following `materialComplete`
calls exactly these callbacks, in registration order, each once, every one
inside `materialComplete`, and leaves the vector empty and the material Idle. -/
theorem queued_callbacks_run_once_in_order (bodies : List Body) (log : List Event)
    (hPure : ∀ b ∈ bodies, b.touchesMaterial = false) :
    exec (Op.materialBegin :: (bodies.map Callback.fn).map Op.onMaterialComplete)
        ⟨false, [], log⟩
      = .ok ⟨true, bodies.map Callback.fn, log⟩ ∧
    exec (Op.materialBegin ::
          ((bodies.map Callback.fn).map Op.onMaterialComplete ++ [Op.materialComplete]))
        ⟨false, [], log⟩
      = .ok ⟨false, [],
          log ++ bodies.flatMap
            (fun b => Event.enter b false :: (b.effects.map Event.effect ++ [Event.leave]))⟩ ∧
    invocations (bodies.flatMap
        (fun b => Event.enter b false :: (b.effects.map Event.effect ++ [Event.leave])))
      = bodies := by
  have hreg := registerAll_fetching bodies ⟨true, [], log⟩ rfl
  simp only [List.nil_append] at hreg
  rw [← flatMap_frame_of_not_touches bodies hPure]
  refine ⟨?_, ?_, invocations_frames bodies hPure⟩
  · have h := exec_register (bodies.map Callback.fn) [] ⟨true, [], log⟩
    simp only [List.append_nil] at h
    simp only [exec, step, materialBegin, llassert, Bool.not_false, if_true, h, hreg]
  · have h := exec_register (bodies.map Callback.fn) [Op.materialComplete] ⟨true, [], log⟩
    simp only [exec, step, materialBegin, llassert, Bool.not_false, if_true, h, hreg,
      materialComplete_fetching]

/-- C1 at two callbacks: the first performs effect 1, the second effects 2
and 3. -/
theorem queued_callbacks_run_once_in_order_witness :
    (∀ b ∈ [Body.effect 1 .done, Body.effect 2 (.effect 3 .done)], b.touchesMaterial = false) ∧
    exec [Op.materialBegin,
          Op.onMaterialComplete (.fn (.effect 1 .done)),
          Op.onMaterialComplete (.fn (.effect 2 (.effect 3 .done))),
          Op.materialComplete] construct
      = .ok ⟨false, [],
          [Event.enter (.effect 1 .done) false, .effect 1, .leave,
           Event.enter (.effect 2 (.effect 3 .done)) false, .effect 2, .effect 3, .leave]⟩ :=
  ⟨by decide,
   (queued_callbacks_run_once_in_order
      [Body.effect 1 .done, Body.effect 2 (.effect 3 .done)] [] (by decide)).2.1⟩

/-- C2. On a material that is not fetching, `onMaterialComplete` with a non-empty
callback calls it on the spot: the call, everything its body does and its return
are logged before `onMaterialComplete` returns, the callback is not called a
second time from inside its own body, and the vector and the flag are unchanged.
A callback that does not touch the material accounts for exactly one call. A
later `materialBegin`/`materialComplete` cycle calls the callbacks the vector
already held and nothing else. -/
theorem idle_registration_calls_immediately (body : Body) (log : List Event) :
    (∀ queue : List Callback,
      onMaterialComplete (.fn body) ⟨false, queue, log⟩
        = ⟨false, queue, log ++ (Event.enter body false :: (body.idleTrace ++ [Event.leave]))⟩) ∧
    (∀ f, Event.enter body f ∉ body.idleTrace) ∧
    (body.touchesMaterial = false →
      body.idleTrace = body.effects.map Event.effect ∧
      invocations (Event.enter body false :: (body.idleTrace ++ [Event.leave])) = [body]) ∧
    (∀ queued : List Body,
      exec [Op.materialBegin, Op.materialComplete]
          (onMaterialComplete (.fn body) ⟨false, queued.map Callback.fn, log⟩)
        = .ok ⟨false, [],
            log ++ (Event.enter body false :: (body.idleTrace ++ [Event.leave]))
              ++ queued.flatMap frame⟩) := by
  have key : ∀ queue : List Callback,
      onMaterialComplete (.fn body) ⟨false, queue, log⟩
        = ⟨false, queue, log ++ (Event.enter body false :: (body.idleTrace ++ [Event.leave]))⟩ :=
    fun queue => onMaterialComplete_idle (.fn body) ⟨false, queue, log⟩ rfl
  refine ⟨key, enter_not_mem_idleTrace body, ?_, ?_⟩
  · intro hPure
    refine ⟨idleTrace_of_not_touches body hPure, ?_⟩
    rw [idleTrace_of_not_touches body hPure]
    simp [invocations, invocations_append, invocations_effects]
  · intro queued
    rw [key]
    simp only [exec, step, materialBegin, llassert, Bool.not_false, if_true,
      materialComplete_fetching]

/-- C2 at the callback that performs effect 5, on a freshly constructed
material. -/
theorem idle_registration_calls_immediately_witness :
    (Body.effect 5 .done).touchesMaterial = false ∧
    onMaterialComplete (.fn (.effect 5 .done)) construct
      = ⟨false, [], [Event.enter (.effect 5 .done) false, .effect 5, .leave]⟩ ∧
    invocations [Event.enter (.effect 5 .done) false, .effect 5, .leave] = [.effect 5 .done] :=
  ⟨rfl,
   (idle_registration_calls_immediately (.effect 5 .done) []).1 [],
   ((idle_registration_calls_immediately (.effect 5 .done) []).2.2.1 rfl).2⟩

/-- C3. `materialBegin` fails with the assertion exactly when the material is
already fetching, and otherwise sets `mFetching`; a second `materialBegin` right
after a successful one fails. `materialComplete` fails with the assertion exactly
when the material is not fetching, which is the case of a freshly constructed
material; whenever it completes it has cleared `mFetching`, and it does complete
on every fetching material whose vector holds non-empty callbacks. -/
theorem begin_complete_preconditions :
    (∀ w : World, materialBegin w = .error .assertion ↔ w.mFetching = true) ∧
    (∀ w : World, w.mFetching = false →
      materialBegin w = .ok ⟨true, w.materialCompleteCallbacks, w.log⟩) ∧
    (∀ w w1 : World, materialBegin w = .ok w1 → materialBegin w1 = .error .assertion) ∧
    (∀ w : World, materialComplete w = .error .assertion ↔ w.mFetching = false) ∧
    construct.mFetching = false ∧
    materialComplete construct = .error .assertion ∧
    (∀ w w1 : World, materialComplete w = .ok w1 → w1.mFetching = false) ∧
    (∀ (bodies : List Body) (log : List Event),
      ∃ w1, materialComplete ⟨true, bodies.map Callback.fn, log⟩ = .ok w1 ∧
        w1.mFetching = false) := by
  refine ⟨?_, ?_, ?_, ?_, rfl, rfl, ?_, ?_⟩
  · intro w
    cases hf : w.mFetching <;> simp [materialBegin, llassert, hf]
  · intro w hf
    simp [materialBegin, llassert, hf]
  · intro w w1 h
    cases hf : w.mFetching with
    | true => simp [materialBegin, llassert, hf] at h
    | false =>
      simp only [materialBegin, llassert, hf, Bool.not_false, if_true, Except.ok.injEq] at h
      subst h
      rfl
  · intro w
    obtain ⟨fetching, queue, log⟩ := w
    cases fetching with
    | false => simp [materialComplete, llassert]
    | true =>
      simp only [materialComplete, llassert, if_true, Bool.true_eq_false, iff_false]
      cases hd : drain queue ⟨false, queue, log⟩ with
      | error e =>
        have := drain_error _ _ _ hd
        subst this
        simp
      | ok w2 => simp
  · intro w w1 h
    exact (materialComplete_ok w w1 h).1
  · intro bodies log
    exact ⟨_, materialComplete_fetching bodies log, rfl⟩

/-- C3 on a freshly constructed material: `materialBegin` succeeds, a second one
fails. -/
theorem begin_complete_preconditions_witness :
    construct.mFetching = false ∧
    materialBegin construct = .ok ⟨true, [], []⟩ ∧
    materialBegin ⟨true, [], []⟩ = .error .assertion :=
  ⟨rfl, begin_complete_preconditions.2.1 construct rfl,
   begin_complete_preconditions.2.2.1 construct ⟨true, [], []⟩ rfl⟩

/-- C9. `onMaterialComplete` with an empty callback returns the state it was
given, in every state: nothing is called, nothing is stored, the flag is
unchanged. As a consequence no sequence of operations on a constructed material,
whatever callbacks it registers, ever makes `materialComplete` call an empty
function. -/
theorem null_callback_is_noop :
    (∀ w : World, onMaterialComplete .null w = w) ∧
    (∀ w : World,
      (onMaterialComplete .null w).log = w.log ∧
      (onMaterialComplete .null w).materialCompleteCallbacks = w.materialCompleteCallbacks ∧
      (onMaterialComplete .null w).mFetching = w.mFetching) ∧
    (∀ ops : List Op, exec ops construct ≠ .error .bad_function_call) :=
  ⟨fun _ => rfl, fun _ => ⟨rfl, rfl, rfl⟩,
   fun ops => exec_ne_bad_function_call ops construct (by simp [construct])⟩

/-- C9 on a Fetching material: registering an empty callback, then a callback
with effect 4, then completing calls just the latter. -/
theorem null_callback_is_noop_witness :
    onMaterialComplete .null ⟨true, [], []⟩ = ⟨true, [], []⟩ ∧
    exec [Op.materialBegin, Op.onMaterialComplete .null,
          Op.onMaterialComplete (.fn (.effect 4 .done)), Op.materialComplete] construct
      ≠ .error .bad_function_call :=
  ⟨null_callback_is_noop.1 ⟨true, [], []⟩, null_callback_is_noop.2.2 _⟩

/-- C10. `materialComplete` clears `mFetching` before the loop: on a Fetching
material whose vector holds callbacks c1..cN it returns with the flag cleared and
the vector empty, having logged the frames of c1..cN in order; every callback
called on the way, queued or nested, finds `mFetching = false`; when a running
callback reaches a call `onMaterialComplete(g)` with `g` non-empty, the whole
call of `g` is logged at that point, before the rest of the running callback and
hence before the next queued callback, and the vector is left as it was. -/
theorem complete_clears_flag_before_drain :
    (∀ (bodies : List Body) (log : List Event),
      materialComplete ⟨true, bodies.map Callback.fn, log⟩
        = .ok ⟨false, [], log ++ bodies.flatMap frame⟩) ∧
    (∀ bodies : List Body, ∀ f ∈ observedFlags (bodies.flatMap frame), f = false) ∧
    (∀ (g next : Body) (queue : List Callback) (log : List Event),
      run (.onMaterialComplete (.fn g) next) ⟨false, queue, log⟩
        = run next ⟨false, queue, log ++ (Event.enter g false :: (g.idleTrace ++ [Event.leave]))⟩) ∧
    (∀ (b : Body) (queue : List Callback) (log : List Event),
      run b ⟨false, queue, log⟩ = ⟨false, queue, log ++ b.idleTrace⟩) ∧
    (∀ g next : Body,
      frame (.onMaterialComplete (.fn g) next)
        = Event.enter (.onMaterialComplete (.fn g) next) false ::
            (frame g ++ next.idleTrace ++ [Event.leave])) :=
  ⟨materialComplete_fetching, observedFlags_frames,
   fun g next queue log => by
     simp only [run]
     rw [onMaterialComplete_idle (.fn g) ⟨false, queue, log⟩ rfl]
     rfl,
   fun b queue log => run_idle b ⟨false, queue, log⟩ rfl,
   fun _ _ => rfl⟩

/-- C10 on a vector of two callbacks: the first performs effect 1, registers a
callback with effect 7 and then performs effect 2; the second performs effect 3.
The nested callback runs between effects 1 and 2. -/
theorem complete_clears_flag_before_drain_witness :
    materialComplete
        ⟨true,
         [.fn (.effect 1 (.onMaterialComplete (.fn (.effect 7 .done)) (.effect 2 .done))),
          .fn (.effect 3 .done)],
         []⟩
      = .ok ⟨false, [],
          [Event.enter (.effect 1 (.onMaterialComplete (.fn (.effect 7 .done)) (.effect 2 .done)))
             false,
           .effect 1,
           Event.enter (.effect 7 .done) false, .effect 7, .leave,
           .effect 2, .leave,
           Event.enter (.effect 3 .done) false, .effect 3, .leave]⟩ :=
  complete_clears_flag_before_drain.1
    [.effect 1 (.onMaterialComplete (.fn (.effect 7 .done)) (.effect 2 .done)),
     .effect 3 .done] []

/-! ## Binder: auxiliary lemmas -/

section BinderProperties

variable {F Tex TT Sh : Type} [Neg F] [One F] [Div F]

/-- The calls of `bind` during a shadow pass. -/
theorem bind_of_shadow (getPacked : TT → Fin 8 → F) (g : RenderState Sh Tex)
    (m : Material F Tex TT) (media_tex : Option Tex) (h : g.sShadowRender = true) :
    bind getPacked g m media_tex =
      [GLCall.uniform1f g.sCurBoundShaderPtr Uniform.MINIMUM_ALPHA (minimumAlpha m),
       GLCall.bindFast 0
         (orPlaceholder (effectiveTexture media_tex m.mBaseColorTexture) g.sWhiteImagep)] := by
  obtain ⟨mode, cutoff, color, ecolor, rough, metal, tt, bt, nt, mt, et⟩ := m
  obtain ⟨sh, shadow, white, flat⟩ := g
  simp only at h
  subst h
  cases mode <;> cases media_tex <;> cases bt <;> rfl

/-- The calls of `bind` outside a shadow pass. -/
theorem bind_of_not_shadow (getPacked : TT → Fin 8 → F) (g : RenderState Sh Tex)
    (m : Material F Tex TT) (media_tex : Option Tex) (h : g.sShadowRender = false) :
    bind getPacked g m media_tex =
      [GLCall.uniform1f g.sCurBoundShaderPtr Uniform.MINIMUM_ALPHA (minimumAlpha m),
       GLCall.bindFast 0
         (orPlaceholder (effectiveTexture media_tex m.mBaseColorTexture) g.sWhiteImagep),
       GLCall.bindTexture g.sCurBoundShaderPtr Uniform.BUMP_MAP
         (orPlaceholder m.mNormalTexture g.sFlatNormalImagep),
       GLCall.bindTexture g.sCurBoundShaderPtr Uniform.SPECULAR_MAP
         (orPlaceholder m.mMetallicRoughnessTexture g.sWhiteImagep),
       GLCall.bindTexture g.sCurBoundShaderPtr Uniform.EMISSIVE_MAP
         (orPlaceholder (effectiveTexture media_tex m.mEmissiveTexture) g.sWhiteImagep),
       GLCall.uniform1f g.sCurBoundShaderPtr Uniform.ROUGHNESS_FACTOR m.mRoughnessFactor,
       GLCall.uniform1f g.sCurBoundShaderPtr Uniform.METALLIC_FACTOR m.mMetallicFactor,
       GLCall.uniform3fv g.sCurBoundShaderPtr Uniform.EMISSIVE_COLOR 1 m.mEmissiveColor.mV,
       GLCall.uniform4fv g.sCurBoundShaderPtr Uniform.TEXTURE_BASE_COLOR_TRANSFORM 2
         (getPacked (m.mTextureTransform TextureInfo.GLTF_TEXTURE_INFO_BASE_COLOR)),
       GLCall.uniform4fv g.sCurBoundShaderPtr Uniform.TEXTURE_NORMAL_TRANSFORM 2
         (getPacked (m.mTextureTransform TextureInfo.GLTF_TEXTURE_INFO_NORMAL)),
       GLCall.uniform4fv g.sCurBoundShaderPtr Uniform.TEXTURE_METALLIC_ROUGHNESS_TRANSFORM 2
         (getPacked (m.mTextureTransform TextureInfo.GLTF_TEXTURE_INFO_METALLIC_ROUGHNESS)),
       GLCall.uniform4fv g.sCurBoundShaderPtr Uniform.TEXTURE_EMISSIVE_TRANSFORM 2
         (getPacked (m.mTextureTransform TextureInfo.GLTF_TEXTURE_INFO_EMISSIVE))] := by
  obtain ⟨mode, cutoff, color, ecolor, rough, metal, tt, bt, nt, mt, et⟩ := m
  obtain ⟨sh, shadow, white, flat⟩ := g
  simp only at h
  subst h
  cases mode <;> cases media_tex <;> cases bt <;> cases nt <;> cases mt <;> cases et <;> rfl

/-- In every pass `MINIMUM_ALPHA` is uploaded once, with the threshold. -/
theorem minimumAlphaUploads_bind (getPacked : TT → Fin 8 → F) (g : RenderState Sh Tex)
    (m : Material F Tex TT) (media_tex : Option Tex) :
    minimumAlphaUploads (bind getPacked g m media_tex) = [minimumAlpha m] := by
  cases h : g.sShadowRender with
  | true => rw [bind_of_shadow getPacked g m media_tex h]; rfl
  | false => rw [bind_of_not_shadow getPacked g m media_tex h]; rfl

/-- In every pass one texture is bound on unit 0. -/
theorem unit0Binds_bind (getPacked : TT → Fin 8 → F) (g : RenderState Sh Tex)
    (m : Material F Tex TT) (media_tex : Option Tex) :
    unit0Binds (bind getPacked g m media_tex) =
      [orPlaceholder (effectiveTexture media_tex m.mBaseColorTexture) g.sWhiteImagep] := by
  cases h : g.sShadowRender with
  | true => rw [bind_of_shadow getPacked g m media_tex h]; rfl
  | false => rw [bind_of_not_shadow getPacked g m media_tex h]; rfl

/-- No sampler is bound through `bindTexture` during a shadow pass. -/
theorem textureBinds_bind_of_shadow (getPacked : TT → Fin 8 → F) (g : RenderState Sh Tex)
    (m : Material F Tex TT) (media_tex : Option Tex) (h : g.sShadowRender = true)
    (u : Uniform) : textureBinds u (bind getPacked g m media_tex) = [] := by
  rw [bind_of_shadow getPacked g m media_tex h]; rfl

/-- The textures bound to `BUMP_MAP`. -/
theorem textureBinds_bump (getPacked : TT → Fin 8 → F) (g : RenderState Sh Tex)
    (m : Material F Tex TT) (media_tex : Option Tex) :
    textureBinds Uniform.BUMP_MAP (bind getPacked g m media_tex) =
      if g.sShadowRender then []
      else [orPlaceholder m.mNormalTexture g.sFlatNormalImagep] := by
  cases h : g.sShadowRender with
  | true => rw [bind_of_shadow getPacked g m media_tex h]; rfl
  | false => rw [bind_of_not_shadow getPacked g m media_tex h]; rfl

/-- The textures bound to `SPECULAR_MAP`. -/
theorem textureBinds_specular (getPacked : TT → Fin 8 → F) (g : RenderState Sh Tex)
    (m : Material F Tex TT) (media_tex : Option Tex) :
    textureBinds Uniform.SPECULAR_MAP (bind getPacked g m media_tex) =
      if g.sShadowRender then []
      else [orPlaceholder m.mMetallicRoughnessTexture g.sWhiteImagep] := by
  cases h : g.sShadowRender with
  | true => rw [bind_of_shadow getPacked g m media_tex h]; rfl
  | false => rw [bind_of_not_shadow getPacked g m media_tex h]; rfl

/-- The textures bound to `EMISSIVE_MAP`. -/
theorem textureBinds_emissive (getPacked : TT → Fin 8 → F) (g : RenderState Sh Tex)
    (m : Material F Tex TT) (media_tex : Option Tex) :
    textureBinds Uniform.EMISSIVE_MAP (bind getPacked g m media_tex) =
      if g.sShadowRender then []
      else [orPlaceholder (effectiveTexture media_tex m.mEmissiveTexture) g.sWhiteImagep] := by
  cases h : g.sShadowRender with
  | true => rw [bind_of_shadow getPacked g m media_tex h]; rfl
  | false => rw [bind_of_not_shadow getPacked g m media_tex h]; rfl

/-! ## Binder: the properties -/

/-- C4. In every pass `bind` uploads `MINIMUM_ALPHA` exactly once. The value is
-1 whenever the alpha mode is not ALPHA_MODE_MASK, whatever the cutoff and the
base colour are, and `mAlphaCutoff / mBaseColor.mV[3]` whenever the alpha mode is
ALPHA_MODE_MASK (the source divides without looking at the divisor, so this
holds in particular when that component is non-zero). -/
theorem minimum_alpha_value (getPacked : TT → Fin 8 → F) (g : RenderState Sh Tex)
    (m : Material F Tex TT) (media_tex : Option Tex) :
    (minimumAlphaUploads (bind getPacked g m media_tex)).length = 1 ∧
    (m.mAlphaMode ≠ AlphaMode.ALPHA_MODE_MASK →
      minimumAlphaUploads (bind getPacked g m media_tex) = [-1]) ∧
    (m.mAlphaMode = AlphaMode.ALPHA_MODE_MASK →
      minimumAlphaUploads (bind getPacked g m media_tex)
        = [m.mAlphaCutoff / m.mBaseColor.mV 3]) := by
  rw [minimumAlphaUploads_bind]
  refine ⟨rfl, ?_, ?_⟩
  · intro h
    cases hm : m.mAlphaMode with
    | ALPHA_MODE_MASK => exact absurd hm h
    | ALPHA_MODE_OPAQUE => simp [minimumAlpha, hm]
    | ALPHA_MODE_BLEND => simp [minimumAlpha, hm]
  · intro h
    simp [minimumAlpha, h]

/-- C4 on the samples: in mask mode with cutoff 1/2 and alpha 1/4 the upload is
2, in the shadow pass as well; the opaque sample uploads -1. -/
theorem minimum_alpha_value_witness :
    sampleMask.mAlphaMode = AlphaMode.ALPHA_MODE_MASK ∧
    sampleOpaque.mAlphaMode ≠ AlphaMode.ALPHA_MODE_MASK ∧
    minimumAlphaUploads (bind samplePacked sampleShadow sampleMask (some 9)) = [2] ∧
    minimumAlphaUploads (bind samplePacked sampleRender sampleOpaque none) = [-1] :=
  ⟨rfl, by decide,
   ((minimum_alpha_value samplePacked sampleShadow sampleMask (some 9)).2.2 rfl).trans
     (by norm_num [sampleMask]),
   (minimum_alpha_value samplePacked sampleRender sampleOpaque none).2.1 (by decide)⟩

/-- C5. With an override texture, the texture bound on unit 0 is the override
and every texture bound to `EMISSIVE_MAP` is the override (one such bind outside
the shadow pass, none during it), whatever the material's own base colour and
emissive textures are; the binds of `BUMP_MAP` and `SPECULAR_MAP` are the same
as with any other override or with none. -/
theorem override_texture_wins (getPacked : TT → Fin 8 → F) (g : RenderState Sh Tex)
    (m : Material F Tex TT) (t : Tex) :
    unit0Binds (bind getPacked g m (some t)) = [some t] ∧
    textureBinds Uniform.EMISSIVE_MAP (bind getPacked g m (some t))
      = (if g.sShadowRender then [] else [some t]) ∧
    (∀ x ∈ textureBinds Uniform.EMISSIVE_MAP (bind getPacked g m (some t)), x = some t) ∧
    (∀ media_tex : Option Tex,
      textureBinds Uniform.BUMP_MAP (bind getPacked g m (some t))
        = textureBinds Uniform.BUMP_MAP (bind getPacked g m media_tex) ∧
      textureBinds Uniform.SPECULAR_MAP (bind getPacked g m (some t))
        = textureBinds Uniform.SPECULAR_MAP (bind getPacked g m media_tex)) := by
  have hE : textureBinds Uniform.EMISSIVE_MAP (bind getPacked g m (some t))
      = (if g.sShadowRender then [] else [some t]) := by
    rw [textureBinds_emissive]; rfl
  refine ⟨?_, hE, ?_, ?_⟩
  · rw [unit0Binds_bind]; rfl
  · rw [hE]
    intro x hx
    cases hs : g.sShadowRender <;> simp [hs] at hx
    exact hx
  · intro media_tex
    simp only [textureBinds_bump, textureBinds_specular, and_self]

/-- C5 on the opaque sample, whose four textures are set: override 9 is bound on
unit 0 and to `EMISSIVE_MAP`. -/
theorem override_texture_wins_witness :
    unit0Binds (bind samplePacked sampleRender sampleOpaque (some 9)) = [some 9] ∧
    textureBinds Uniform.EMISSIVE_MAP (bind samplePacked sampleRender sampleOpaque (some 9))
      = [some 9] :=
  ⟨(override_texture_wins samplePacked sampleRender sampleOpaque 9).1,
   (override_texture_wins samplePacked sampleRender sampleOpaque 9).2.1⟩

/-- C6. In every pass `bind` binds exactly one texture on unit 0. Without an
override it is `mBaseColorTexture` when that is set and the white placeholder
`sWhiteImagep` when it is not. -/
theorem base_color_bind (getPacked : TT → Fin 8 → F) (g : RenderState Sh Tex)
    (m : Material F Tex TT) :
    (∀ media_tex : Option Tex, (unit0Binds (bind getPacked g m media_tex)).length = 1) ∧
    (∀ t : Tex, m.mBaseColorTexture = some t →
      unit0Binds (bind getPacked g m none) = [some t]) ∧
    (m.mBaseColorTexture = none →
      unit0Binds (bind getPacked g m none) = [g.sWhiteImagep]) := by
  refine ⟨?_, ?_, ?_⟩
  · intro media_tex
    rw [unit0Binds_bind]; rfl
  · intro t h
    rw [unit0Binds_bind, h]; rfl
  · intro h
    rw [unit0Binds_bind, h]; rfl

/-- C6 on the samples: the opaque sample binds its own texture 11, the mask
sample, which has none, binds the white placeholder 1. -/
theorem base_color_bind_witness :
    sampleOpaque.mBaseColorTexture = some 11 ∧
    sampleMask.mBaseColorTexture = none ∧
    unit0Binds (bind samplePacked sampleShadow sampleOpaque none) = [some 11] ∧
    unit0Binds (bind samplePacked sampleRender sampleMask none) = [some 1] :=
  ⟨rfl, rfl,
   (base_color_bind samplePacked sampleShadow sampleOpaque).2.1 11 rfl,
   (base_color_bind samplePacked sampleRender sampleMask).2.2 rfl⟩

/-- C7. During a shadow pass `bind` issues exactly two calls, whatever the
material and the override: the `MINIMUM_ALPHA` upload and the bind on texture
unit 0. Nothing is bound through `bindTexture`. -/
theorem shadow_pass_calls (getPacked : TT → Fin 8 → F) (g : RenderState Sh Tex)
    (m : Material F Tex TT) (media_tex : Option Tex) (h : g.sShadowRender = true) :
    bind getPacked g m media_tex =
      [GLCall.uniform1f g.sCurBoundShaderPtr Uniform.MINIMUM_ALPHA (minimumAlpha m),
       GLCall.bindFast 0
         (orPlaceholder (effectiveTexture media_tex m.mBaseColorTexture) g.sWhiteImagep)] ∧
    (bind getPacked g m media_tex).length = 2 ∧
    ∀ u : Uniform, textureBinds u (bind getPacked g m media_tex) = [] := by
  refine ⟨bind_of_shadow getPacked g m media_tex h, ?_,
    textureBinds_bind_of_shadow getPacked g m media_tex h⟩
  rw [bind_of_shadow getPacked g m media_tex h]; rfl

/-- C7 on the opaque sample with override 9. -/
theorem shadow_pass_calls_witness :
    sampleShadow.sShadowRender = true ∧
    bind samplePacked sampleShadow sampleOpaque (some 9) =
      [GLCall.uniform1f 7 Uniform.MINIMUM_ALPHA (-1), GLCall.bindFast 0 (some 9)] :=
  ⟨rfl, (shadow_pass_calls samplePacked sampleShadow sampleOpaque (some 9) rfl).1⟩

/-- C8. Outside a shadow pass `bind` issues, after the `MINIMUM_ALPHA` upload
and the bind on unit 0, exactly these calls in this order: `BUMP_MAP` with the
normal texture or the flat-normal placeholder, `SPECULAR_MAP` with the
metallic-roughness texture or the white placeholder, `EMISSIVE_MAP` with the
effective emissive texture or the white placeholder, the roughness and metallic
factors, the emissive colour, and the four packed texture transforms (two vec4,
eight floats each), each of its own channel. -/
theorem render_pass_calls (getPacked : TT → Fin 8 → F) (g : RenderState Sh Tex)
    (m : Material F Tex TT) (media_tex : Option Tex) (h : g.sShadowRender = false) :
    bind getPacked g m media_tex =
      [GLCall.uniform1f g.sCurBoundShaderPtr Uniform.MINIMUM_ALPHA (minimumAlpha m),
       GLCall.bindFast 0
         (orPlaceholder (effectiveTexture media_tex m.mBaseColorTexture) g.sWhiteImagep),
       GLCall.bindTexture g.sCurBoundShaderPtr Uniform.BUMP_MAP
         (orPlaceholder m.mNormalTexture g.sFlatNormalImagep),
       GLCall.bindTexture g.sCurBoundShaderPtr Uniform.SPECULAR_MAP
         (orPlaceholder m.mMetallicRoughnessTexture g.sWhiteImagep),
       GLCall.bindTexture g.sCurBoundShaderPtr Uniform.EMISSIVE_MAP
         (orPlaceholder (effectiveTexture media_tex m.mEmissiveTexture) g.sWhiteImagep),
       GLCall.uniform1f g.sCurBoundShaderPtr Uniform.ROUGHNESS_FACTOR m.mRoughnessFactor,
       GLCall.uniform1f g.sCurBoundShaderPtr Uniform.METALLIC_FACTOR m.mMetallicFactor,
       GLCall.uniform3fv g.sCurBoundShaderPtr Uniform.EMISSIVE_COLOR 1 m.mEmissiveColor.mV,
       GLCall.uniform4fv g.sCurBoundShaderPtr Uniform.TEXTURE_BASE_COLOR_TRANSFORM 2
         (getPacked (m.mTextureTransform TextureInfo.GLTF_TEXTURE_INFO_BASE_COLOR)),
       GLCall.uniform4fv g.sCurBoundShaderPtr Uniform.TEXTURE_NORMAL_TRANSFORM 2
         (getPacked (m.mTextureTransform TextureInfo.GLTF_TEXTURE_INFO_NORMAL)),
       GLCall.uniform4fv g.sCurBoundShaderPtr Uniform.TEXTURE_METALLIC_ROUGHNESS_TRANSFORM 2
         (getPacked (m.mTextureTransform TextureInfo.GLTF_TEXTURE_INFO_METALLIC_ROUGHNESS)),
       GLCall.uniform4fv g.sCurBoundShaderPtr Uniform.TEXTURE_EMISSIVE_TRANSFORM 2
         (getPacked (m.mTextureTransform TextureInfo.GLTF_TEXTURE_INFO_EMISSIVE))] :=
  bind_of_not_shadow getPacked g m media_tex h

/-- C8 on the mask sample, which has no texture set, without override: the
three samplers get the placeholders. -/
theorem render_pass_calls_witness :
    sampleRender.sShadowRender = false ∧
    textureBinds Uniform.BUMP_MAP (bind samplePacked sampleRender sampleMask none) = [some 2] ∧
    textureBinds Uniform.SPECULAR_MAP (bind samplePacked sampleRender sampleMask none)
      = [some 1] ∧
    textureBinds Uniform.EMISSIVE_MAP (bind samplePacked sampleRender sampleMask none)
      = [some 1] ∧
    (bind samplePacked sampleRender sampleMask none).length = 12 := by
  have h := render_pass_calls samplePacked sampleRender sampleMask none rfl
  refine ⟨rfl, ?_, ?_, ?_, ?_⟩ <;> rw [h] <;> rfl

end BinderProperties

end LLFetchedGLTFMaterial
